/-
Verification of the indexer orchestration core: a shallow embedding of the
catalog store (database.py), the foreground process supervisor (launcher.py
and the serve route of python-html-indexer.py), the discovery scan batch,
the static HTML server registry, the preview capture worker, and the web
application detector, with theorems settling the stated properties.
-/
import Mathlib

/-! ## Decimal digit printing and parsing

Python renders simple ids with an f-string of the form prefix + 03d and the
SQL side parses them back with CAST(SUBSTR(simple_id, 2) AS INTEGER).  The
printing side is modelled with an explicit fuel-bounded digit expansion so
that everything reduces inside the kernel. -/

def decDigitChar (m : Nat) : Char :=
  if m = 0 then '0' else if m = 1 then '1' else if m = 2 then '2'
  else if m = 3 then '3' else if m = 4 then '4' else if m = 5 then '5'
  else if m = 6 then '6' else if m = 7 then '7' else if m = 8 then '8'
  else '9'

def natDigitsCore : Nat → Nat → List Char → List Char
  | 0, _, acc => acc
  | fuel + 1, n, acc =>
    if n = 0 then acc else natDigitsCore fuel (n / 10) (decDigitChar (n % 10) :: acc)

/-- Decimal rendering of a natural number, as the d conversion of Python. -/
def natRepr (n : Nat) : String :=
  if n = 0 then "0" else ⟨natDigitsCore (n + 1) n []⟩

/-- Zero padding to (at least) three digits, as the Python format 03d. -/
def pad3 (n : Nat) : String :=
  if n < 10 then "00" ++ natRepr n
  else if n < 100 then "0" ++ natRepr n
  else natRepr n

/-- Leading-digit parse with accumulator: the semantics of SQLite CAST of a
text value to INTEGER (parse the longest digit run, 0 when there is none). -/
def parseDigits : List Char → Nat → Nat
  | [], acc => acc
  | c :: cs, acc => if c.isDigit then parseDigits cs (acc * 10 + (c.toNat - 48)) else acc

/-- CAST(SUBSTR(s, 2) AS INTEGER): drop the one-character kind marker and
parse the decimal suffix. -/
def castSuffix (s : String) : Nat :=
  parseDigits (s.data.drop 1) 0

/-! ## Catalog store (database.py)

The indexed_items table is modelled as a list of rows in rowid order.  The
row carries exactly the columns touched by insert_item when it is called from
the persist phase of the scan worker. -/

structure Row where
  id : Nat
  item_type : String
  name : String
  folder_path : String
  main_file_path : String
  html_interface_path : Option String
  port : Nat
  thumbnail_path : Option String
  file_size : Nat
  created_at : String
  last_modified : Option String
  dependencies : Option String
  last_scanned : String
  simple_id : String
deriving DecidableEq, Repr

/-- The dictionary built by the scan worker for db.insert_item: every key of
db_item in scanning_worker, in particular no id and no simple_id. -/
structure ItemData where
  item_type : String
  name : String
  folder_path : String
  main_file_path : String
  html_interface_path : Option String
  port : Nat
  thumbnail_path : Option String
  file_size : Nat
  created_at : String
  last_modified : Option String
  dependencies : Option String
deriving DecidableEq, Repr

/-- The one-character kind marker: p for python_app, h otherwise. -/
def kindMarker (item_type : String) : String :=
  if item_type = "python_app" then "p" else "h"

/-- ORDER BY CAST(...) DESC LIMIT 1 over a list of parsed suffixes: the
maximum value, none on an empty list. -/
def maxOfList : List Nat → Option Nat
  | [] => none
  | x :: xs =>
    match maxOfList xs with
    | none => some x
    | some m => some (max x m)

/-- database.py _generate_simple_id: select the rows whose simple_id matches
LIKE marker% (character-level prefix match), take the greatest numeric
suffix, add one (1 when there is no such row), render as marker plus a
three-digit zero-padded decimal. -/
def generateSimpleId (rows : List Row) (item_type : String) : String :=
  match maxOfList ((rows.filter fun r => (kindMarker item_type).data.isPrefixOf r.simple_id.data).map
      fun r => castSuffix r.simple_id) with
  | some m => kindMarker item_type ++ pad3 (m + 1)
  | none => kindMarker item_type ++ pad3 1

/-- SELECT ... WHERE main_file_path = ? AND folder_path = ? with fetchone:
first row in rowid order matching the pair. -/
def findExisting (table : List Row) (d : ItemData) : Option Row :=
  table.find? fun r =>
    r.main_file_path = d.main_file_path && r.folder_path = d.folder_path

/-- The modification check of insert_item: both the incoming and the stored
value must be present (truthy) and differ. -/
def mtimeChanged (d : ItemData) (stored : Option String) : Bool :=
  match d.last_modified, stored with
  | some c, some s => c != s
  | _, _ => false

/-- The full-column UPDATE branch of insert_item: every key of item_data is
written, plus last_scanned; id and simple_id are not among them. -/
def applyItemData (r : Row) (d : ItemData) (now : String) : Row :=
  { r with
    item_type := d.item_type, name := d.name, folder_path := d.folder_path,
    main_file_path := d.main_file_path,
    html_interface_path := d.html_interface_path, port := d.port,
    thumbnail_path := d.thumbnail_path, file_size := d.file_size,
    created_at := d.created_at, last_modified := d.last_modified,
    dependencies := d.dependencies, last_scanned := now }

/-- Fresh rowid for an INSERT, one past the greatest id in the table. -/
def nextRowId (table : List Row) : Nat :=
  (table.map Row.id).foldr max 0 + 1

/-- database.py insert_item: upsert keyed on (main_file_path, folder_path).
An existing row is fully rewritten when the stored and incoming modification
times are both present and differ, otherwise only its last_scanned column is
touched; a new row receives a freshly generated simple id. -/
def insert_item (table : List Row) (d : ItemData) (now : String) : List Row :=
  match findExisting table d with
  | some ex =>
    if mtimeChanged d ex.last_modified then
      table.map fun r => if r.id = ex.id then applyItemData r d now else r
    else
      table.map fun r => if r.id = ex.id then { r with last_scanned := now } else r
  | none =>
    table ++ [{ id := nextRowId table, item_type := d.item_type, name := d.name,
                folder_path := d.folder_path, main_file_path := d.main_file_path,
                html_interface_path := d.html_interface_path, port := d.port,
                thumbnail_path := d.thumbnail_path, file_size := d.file_size,
                created_at := now, last_modified := d.last_modified,
                dependencies := d.dependencies, last_scanned := now,
                simple_id := generateSimpleId table d.item_type }]

/-- database.py remove_item: DELETE WHERE id = ? when such a row exists. -/
def remove_item (table : List Row) (item_id : Nat) : List Row :=
  if table.any fun r => r.id = item_id then
    table.filter fun r => r.id != item_id
  else table

/-! ## Foreground process supervisor (launcher.py and serve_by_simple_id)

The supervisor state is the single current_python_app slot plus the set of
still-running foreground child processes and a fresh-pid source.  Each
request also records a trace of the process-lifecycle actions it performed,
in order, so the teardown discipline is observable. -/

inductive ProcAction where
  | terminate (pid : Nat)
  | waitBounded (pid timeout : Nat)
  | waitUnbounded (pid : Nat)
  | kill (pid : Nat)
  | spawn (pid : Nat)
deriving DecidableEq, Repr

structure RunningProcess where
  pid : Nat
  path : String
  url : String
deriving DecidableEq, Repr

structure SupState where
  current : Option RunningProcess
  alivePids : List Nat
  nextPid : Nat
deriving DecidableEq, Repr

/-- Teardown of launcher.py launch_app: terminate, wait with a five second
timeout, kill when the wait times out; the slot is cleared. -/
def teardownBounded (s : SupState) (oldExitsInTime : Bool) :
    SupState × List ProcAction :=
  match s.current with
  | none => (s, [])
  | some rp =>
    (⟨none, s.alivePids.erase rp.pid, s.nextPid⟩,
     if oldExitsInTime then [.terminate rp.pid, .waitBounded rp.pid 5]
     else [.terminate rp.pid, .waitBounded rp.pid 5, .kill rp.pid])

/-- Teardown of serve_by_simple_id: terminate then an unbounded wait, no
forced kill; the slot is cleared. -/
def teardownUnbounded (s : SupState) : SupState × List ProcAction :=
  match s.current with
  | none => (s, [])
  | some rp =>
    (⟨none, s.alivePids.erase rp.pid, s.nextPid⟩,
     [.terminate rp.pid, .waitUnbounded rp.pid])

inductive LaunchResult where
  | launched (url : String)
  | notFound
  | failed (msg : String)
deriving DecidableEq, Repr

/-- launcher.py launch_app: a missing target file returns 404 before any
teardown; otherwise any current process is torn down with the bounded
discipline, then the new child is spawned (both the html and the script
branch record the process the same way, on port 5000) and recorded; a spawn
failure is caught after the teardown and reported. -/
def launch_app (s : SupState) (path : String)
    (fileExists spawnOk oldExitsInTime : Bool) :
    SupState × LaunchResult × List ProcAction :=
  if !fileExists then (s, .notFound, [])
  else
    let t := teardownBounded s oldExitsInTime
    if spawnOk then
      let pid := t.1.nextPid
      (⟨some ⟨pid, path, "http://localhost:5000"⟩, pid :: t.1.alivePids, pid + 1⟩,
       .launched "http://localhost:5000", t.2 ++ [.spawn pid])
    else (t.1, .failed "spawn failure", t.2)

/-- launcher.py get_status. -/
def get_status (s : SupState) : Option (String × String) :=
  s.current.map fun rp => (rp.path, rp.url)

inductive ServeResult where
  | redirect (url : String)
  | notFound
  | failed (msg : String)
deriving DecidableEq, Repr

/-- The python_app branch of serve_by_simple_id in python-html-indexer.py:
a different running script is torn down with the unbounded discipline, the
same script is reused with a redirect to its recorded url, and otherwise the
script is spawned on its stored port and recorded. -/
def serve_python_app (s : SupState) (scriptPath : String) (port : Nat)
    (spawnOk : Bool) : SupState × ServeResult × List ProcAction :=
  let afterKill :=
    match s.current with
    | some rp => if rp.path != scriptPath then teardownUnbounded s else (s, [])
    | none => (s, [])
  match afterKill.1.current with
  | some rp => (afterKill.1, .redirect rp.url, afterKill.2)
  | none =>
    if spawnOk then
      let pid := afterKill.1.nextPid
      let url := "http://localhost:" ++ natRepr port
      (⟨some ⟨pid, scriptPath, url⟩, pid :: afterKill.1.alivePids, pid + 1⟩,
       .redirect url, afterKill.2 ++ [.spawn pid])
    else (afterKill.1, .failed "spawn failure", afterKill.2)

/-- The single-slot supervisor invariant: either the slot is empty and no
foreground child is alive, or the slot holds exactly the one live child. -/
def supInv (s : SupState) : Bool :=
  match s.current with
  | none => s.alivePids = ([] : List Nat)
  | some rp => s.alivePids = [rp.pid]

/-! ## Discovery scan batch progress (scan_folder and scanning_worker)

The observable progress states of one scan batch, in program order: the
reset done by the scan route (total set to the placeholder 1), the two
finding phases, the single recomputation of the total after the second
stage, and one increment of completed per persisted item. -/

structure ScanView where
  completed : Nat
  total : Nat
  phase : String
deriving DecidableEq, Repr

/-- The persist phase snapshots: completed counts up from 0 to n with the
total fixed. -/
def persistStates (n total : Nat) : List ScanView :=
  (List.range (n + 1)).map fun i => ⟨i, total, "saving_database"⟩

/-- All polled snapshots of one scan batch that discovers nPy executable
apps and nHtml standalone pages, in order. -/
def scanTrace (nPy nHtml : Nat) : List ScanView :=
  [⟨0, 1, "initializing"⟩, ⟨0, 1, "finding_python"⟩, ⟨0, 1, "finding_html"⟩,
   ⟨0, nPy + nHtml, "finding_html"⟩] ++ persistStates (nPy + nHtml) (nPy + nHtml)

/-! ## Ephemeral static server registry (get_or_start_html_server)

The registry maps the html path to the port of its serving task.  A fresh
start spawns the serving thread; during the fixed one second delay the
thread either binds and registers its handle or fails, and the route then
returns the allocated port in both cases without any listening check. -/

structure Registry where
  servers : List (String × Nat)
deriving DecidableEq, Repr

def registryLookup (reg : Registry) (p : String) : Option Nat :=
  (reg.servers.find? fun e => e.1 = p).map fun e => e.2

structure GetOrStartOut where
  reg : Registry
  port : Nat
  startedServer : Bool
deriving DecidableEq, Repr

/-- get_or_start_html_server: an existing handle short-circuits to its port;
otherwise a free port is allocated, the serving thread is started (bindOk
tells whether its bind succeeded during the sleep), and the port is returned
unconditionally. -/
def get_or_start_html_server (reg : Registry) (p : String) (freePort : Nat)
    (bindOk : Bool) : GetOrStartOut :=
  match reg.servers.find? fun e => e.1 = p with
  | some e => ⟨reg, e.2, false⟩
  | none =>
    if bindOk then ⟨⟨reg.servers ++ [(p, freePort)]⟩, freePort, true⟩
    else ⟨reg, freePort, true⟩

/-! ## Preview capture worker (smart_screenshot_worker, screenshot_python_app)

An executable capture item is driven by the observable facts about its run:
whether the companion page and the script exist, whether the spawned process
exits during the eight second settle delay (and with what output), and
whether navigation and the screenshot succeed.  The capture returns the
Python-level outcome together with whether a process was spawned and whether
it is still alive after the finally block. -/

structure ExecEnv where
  hasInterface : Bool
  scriptExists : Bool
  exitsDuringSettle : Bool
  exitCode : Nat
  stdoutTxt : String
  stderrTxt : String
  navigateOk : Bool
  screenshotCreated : Bool
deriving DecidableEq, Repr

inductive PyOutcome where
  | ok
  | raised (msg : String)
deriving DecidableEq, Repr

structure CaptureOut where
  result : PyOutcome
  spawned : Bool
  procAliveAfter : Bool
deriving DecidableEq, Repr

/-- The diagnostic raised when the spawned process has already exited when
the settle delay ends: exit code plus the captured stdout and stderr. -/
def earlyExitMsg (e : ExecEnv) : String :=
  "Python app failed to start. Exit code: " ++ natRepr e.exitCode ++
  "\nSTDOUT: " ++ e.stdoutTxt ++ "\nSTDERR: " ++ e.stderrTxt

/-- screenshot_python_app: the two pre-spawn checks raise before any process
exists; after the spawn the body may raise at the early-exit check, at
navigation or at the screenshot check, and the finally block always
terminates the process (terminate, bounded wait, kill on timeout), so a
spawned process is never left alive. -/
def screenshot_python_app (e : ExecEnv) : CaptureOut :=
  if !e.hasInterface then
    ⟨.raised "No HTML interface found for Python app", false, false⟩
  else if !e.scriptExists then
    ⟨.raised "Python script does not exist", false, false⟩
  else
    let body : PyOutcome :=
      if e.exitsDuringSettle then .raised (earlyExitMsg e)
      else if !e.navigateOk then .raised "navigation failed"
      else if !e.screenshotCreated then .raised "Screenshot file was not created"
      else .ok
    ⟨body, true, false⟩

structure HtmlEnv where
  fileExists : Bool
  screenshotCreated : Bool
deriving DecidableEq, Repr

/-- screenshot_html_file: direct navigation to the file, no process. -/
def screenshot_html_file (e : HtmlEnv) : PyOutcome :=
  if !e.fileExists then .raised "HTML file does not exist"
  else if !e.screenshotCreated then .raised "Screenshot file was not created"
  else .ok

inductive QItem where
  | exec (name : String) (env : ExecEnv)
  | page (name : String) (env : HtmlEnv)
deriving DecidableEq, Repr

structure ItemResult where
  success : Bool
  error : Option String
deriving DecidableEq, Repr

/-- One iteration of the worker loop body for an item: the capture call runs
inside a per-item try that records a failed result with the exception text
and a success result otherwise.  The second component reports whether a
process spawned for the item is still alive afterwards. -/
def processItem : QItem → ItemResult × Bool
  | .exec _ env =>
    let o := screenshot_python_app env
    (match o.result with
     | .ok => ⟨true, none⟩
     | .raised msg => ⟨false, some msg⟩,
     o.procAliveAfter)
  | .page _ env =>
    (match screenshot_html_file env with
     | .ok => ⟨true, none⟩
     | .raised msg => ⟨false, some msg⟩,
     false)

/-- smart_screenshot_worker over one batch: every queued item is processed
in order, its outcome recorded in the results map and the completed counter
incremented, independent of failures of earlier items. -/
def smart_screenshot_worker : List QItem → List (QItem × ItemResult) × Nat
  | [] => ([], 0)
  | it :: rest =>
    let r := processItem it
    let tail := smart_screenshot_worker rest
    ((it, r.1) :: tail.1, tail.2 + 1)

/-! ## Web application detection (is_valid_web_app, find_python_apps)

A source file is abstracted by the outcomes of the textual tests the code
performs on its content: presence of an app.run call, a main definition, the
double-quoted main guard, a declared port in the app.run call, a mention of
PORT, and the framework imports. -/

structure PyContent where
  hasAppRun : Bool
  hasMainDef : Bool
  hasMainGuard : Bool
  portDecl : Option Nat
  mentionsPort : Bool
  importsFlask : Bool
  importsDjango : Bool
deriving DecidableEq, Repr

structure AppInfo where
  script_path : String
  port : Nat
  appType : String
  name : String
deriving DecidableEq, Repr

/-- is_valid_web_app: require an app.run call; reject a main definition with
no main guard; take the declared port, and in both fallback branches use
5000; classify the framework. -/
def is_valid_web_app (path dispName : String) (c : PyContent) : Option AppInfo :=
  if !c.hasAppRun then none
  else if c.hasMainDef && !c.hasMainGuard then none
  else
    let port :=
      match c.portDecl with
      | some n => n
      | none => if c.mentionsPort then 5000 else 5000
    let t :=
      if c.importsFlask then "flask"
      else if c.importsDjango then "django" else "unknown"
    some ⟨path, port, t, dispName⟩

/-- A candidate source file as seen by find_python_apps: its path, display
name, content facts, and the companion page search result for its folder. -/
structure PyFile where
  path : String
  dispName : String
  content : PyContent
  companion : Option String
deriving DecidableEq, Repr

/-- Substring test on character lists (the Python in operator on str). -/
def listStartsWith : List Char → List Char → Bool
  | [], _ => true
  | _ :: _, [] => false
  | a :: as, b :: bs => a = b && listStartsWith as bs

def listContainsSub (needle : List Char) : List Char → Bool
  | [] => listStartsWith needle []
  | c :: rest => listStartsWith needle (c :: rest) || listContainsSub needle rest

/-- The directory exclusions of find_python_apps. -/
def excludedPath (p : String) : Bool :=
  listContainsSub ".venv".data p.data || listContainsSub "site-packages".data p.data ||
  listContainsSub "node_modules".data p.data

structure FoundApp where
  info : AppInfo
  html_interface : String
deriving DecidableEq, Repr

/-- find_python_apps: walk the candidates in order, skip excluded paths,
keep only valid web apps, and among those keep only the ones with a
companion page, logging a warning for the others. -/
def find_python_apps : List PyFile → List FoundApp × List String
  | [] => ([], [])
  | f :: fs =>
    let rest := find_python_apps fs
    if excludedPath f.path then rest
    else
      match is_valid_web_app f.path f.dispName f.content with
      | none => rest
      | some info =>
        match f.companion with
        | some h => (⟨info, h⟩ :: rest.1, rest.2)
        | none =>
          (rest.1, ("No HTML interface found for Python app: " ++ f.path) :: rest.2)

/-! ## Helper lemmas about digit printing and parsing -/

theorem natDigitsCore_zero (fuel : Nat) (acc : List Char) :
    natDigitsCore fuel 0 acc = acc := by
  cases fuel <;> simp [natDigitsCore]

theorem natDigitsCore_append (fuel : Nat) :
    ∀ (n : Nat) (acc : List Char),
      natDigitsCore fuel n acc = natDigitsCore fuel n [] ++ acc := by
  induction fuel with
  | zero => intro n acc; simp [natDigitsCore]
  | succ fuel ih =>
    intro n acc
    by_cases h : n = 0
    · simp [natDigitsCore, h]
    · simp only [natDigitsCore, h, if_false]
      rw [ih (n / 10) (decDigitChar (n % 10) :: acc),
        ih (n / 10) [decDigitChar (n % 10)]]
      simp

theorem decDigitChar_isDigit (m : Nat) : (decDigitChar m).isDigit = true := by
  unfold decDigitChar
  repeat' split
  all_goals decide

theorem decDigitChar_val (m : Nat) (h : m < 10) :
    (decDigitChar m).toNat - 48 = m := by
  interval_cases m <;> decide

theorem natDigitsCore_digits (fuel : Nat) :
    ∀ (n : Nat) (acc : List Char), (∀ c ∈ acc, c.isDigit = true) →
      ∀ c ∈ natDigitsCore fuel n acc, c.isDigit = true := by
  induction fuel with
  | zero => intro n acc hacc; simpa [natDigitsCore] using hacc
  | succ fuel ih =>
    intro n acc hacc
    by_cases h : n = 0
    · simpa [natDigitsCore, h] using hacc
    · simp only [natDigitsCore, h, if_false]
      refine ih (n / 10) _ ?_
      intro c hc
      rcases List.mem_cons.mp hc with hc | hc
      · subst hc; exact decDigitChar_isDigit _
      · exact hacc c hc

theorem parseDigits_append_digit (xs : List Char) :
    ∀ (c : Char) (acc : Nat), (∀ x ∈ xs, x.isDigit = true) → c.isDigit = true →
      parseDigits (xs ++ [c]) acc = 10 * parseDigits xs acc + (c.toNat - 48) := by
  induction xs with
  | nil =>
    intro c acc _ hc
    simp [parseDigits, hc, Nat.mul_comm]
  | cons x xs ih =>
    intro c acc hxs hc
    have hx : x.isDigit = true := hxs x (by simp)
    simp only [List.cons_append, parseDigits, hx, if_true]
    exact ih c _ (fun y hy => hxs y (by simp [hy])) hc

theorem parse_natDigitsCore (fuel : Nat) :
    ∀ n : Nat, 0 < n → n ≤ fuel →
      parseDigits (natDigitsCore fuel n []) 0 = n := by
  induction fuel with
  | zero => intro n hn hle; omega
  | succ fuel ih =>
    intro n hn hle
    have hne : n ≠ 0 := Nat.pos_iff_ne_zero.mp hn
    simp only [natDigitsCore, hne, if_false]
    rw [natDigitsCore_append]
    by_cases hq : n / 10 = 0
    · have hlt : n < 10 := by omega
      have hmod : n % 10 = n := Nat.mod_eq_of_lt hlt
      rw [hq, natDigitsCore_zero]
      simp only [List.nil_append]
      show parseDigits [decDigitChar (n % 10)] 0 = n
      simp only [parseDigits, decDigitChar_isDigit (n % 10), if_true]
      rw [decDigitChar_val _ (Nat.mod_lt n (by omega))]
      simpa using hmod
    · have hqpos : 0 < n / 10 := Nat.pos_iff_ne_zero.mpr hq
      have hqle : n / 10 ≤ fuel := by
        have := Nat.div_lt_self hn (by omega : 1 < 10)
        omega
      rw [parseDigits_append_digit _ _ _
        (natDigitsCore_digits fuel (n / 10) [] (by simp))
        (decDigitChar_isDigit _)]
      rw [ih (n / 10) hqpos hqle, decDigitChar_val _ (Nat.mod_lt n (by omega))]
      omega

theorem parse_natRepr (n : Nat) : parseDigits (natRepr n).data 0 = n := by
  by_cases h : n = 0
  · subst h; decide
  · simp only [natRepr, h, if_false]
    exact parse_natDigitsCore (n + 1) n (Nat.pos_iff_ne_zero.mpr h) (by omega)

theorem parseDigits_cons_zero (rest : List Char) :
    parseDigits ('0' :: rest) 0 = parseDigits rest 0 := by
  simp [parseDigits]

theorem parse_pad3 (n : Nat) : parseDigits (pad3 n).data 0 = n := by
  unfold pad3
  by_cases h10 : n < 10
  · have : ("00" ++ natRepr n).data = '0' :: '0' :: (natRepr n).data := by
      simp [String.data_append]
    simp only [h10, if_true, this, parseDigits_cons_zero]
    exact parse_natRepr n
  · by_cases h100 : n < 100
    · have : ("0" ++ natRepr n).data = '0' :: (natRepr n).data := by
        simp [String.data_append]
      simp only [h10, if_false, h100, if_true, this, parseDigits_cons_zero]
      exact parse_natRepr n
    · simp only [h10, if_false, h100, if_false]
      exact parse_natRepr n

theorem castSuffix_marker_pad3 (mk : String) (hmk : mk.data.length = 1)
    (n : Nat) : castSuffix (mk ++ pad3 n) = n := by
  unfold castSuffix
  have : (mk ++ pad3 n).data = mk.data ++ (pad3 n).data := by
    simp [String.data_append]
  rw [this]
  rcases mk with ⟨l⟩
  rcases l with _ | ⟨c, l⟩
  · simp at hmk
  · rcases l with _ | _
    · simpa using parse_pad3 n
    · simp at hmk

theorem kindMarker_length (t : String) : (kindMarker t).data.length = 1 := by
  unfold kindMarker
  split <;> decide

/-! ## Helper lemmas about the maximum selection -/

theorem maxOfList_eq_foldr (l : List Nat) (h : l ≠ []) :
    maxOfList l = some (l.foldr max 0) := by
  induction l with
  | nil => simp at h
  | cons x xs ih =>
    cases xs with
    | nil => simp [maxOfList]
    | cons y ys =>
      rw [maxOfList, ih (by simp)]
      simp

theorem le_foldr_max (l : List Nat) (x : Nat) (hx : x ∈ l) :
    x ≤ l.foldr max 0 := by
  induction l with
  | nil => simp at hx
  | cons y ys ih =>
    rcases List.mem_cons.mp hx with h | h
    · subst h; simp [List.foldr]
    · simp only [List.foldr]
      exact le_trans (ih h) (le_max_right _ _)

/-- C9. For every kind, next(kind) returns the kind's single fixed prefix
character followed by the decimal successor of the greatest numeric suffix
among existing ids of that prefix, zero-padded to three digits; when no id
of that kind exists the returned id is the prefix followed by 001. -/
theorem generate_simple_id_spec (rows : List Row) (t : String) :
    (kindMarker t).data.length = 1 ∧
    generateSimpleId rows t =
      kindMarker t ++ pad3
        ((((rows.filter fun r => (kindMarker t).data.isPrefixOf r.simple_id.data).map
            fun r => castSuffix r.simple_id).foldr max 0) + 1) ∧
    ((rows.filter fun r => (kindMarker t).data.isPrefixOf r.simple_id.data) = [] →
      generateSimpleId rows t = kindMarker t ++ "001") := by
  refine ⟨kindMarker_length t, ?_, ?_⟩
  · unfold generateSimpleId
    by_cases h : (rows.filter fun r => (kindMarker t).data.isPrefixOf r.simple_id.data) = []
    · rw [h]; rfl
    · have hne : ((rows.filter fun r => (kindMarker t).data.isPrefixOf r.simple_id.data).map
          fun r => castSuffix r.simple_id) ≠ [] :=
        fun hmap => h (List.map_eq_nil_iff.mp hmap)
      rw [maxOfList_eq_foldr _ hne]
  · intro h
    unfold generateSimpleId
    rw [h]
    rfl

theorem generate_simple_id_witness :
    ([] : List Row).filter (fun r => (kindMarker "python_app").data.isPrefixOf r.simple_id.data) = [] ∧
    generateSimpleId [] "python_app" = kindMarker "python_app" ++ "001" := by
  refine ⟨by decide, ?_⟩
  exact (generate_simple_id_spec [] "python_app").2.2 (by decide)

/-! ## Concrete scan items used by witnesses and counterexamples -/

def mkItem (mainP folderP mt : String) : ItemData :=
  { item_type := "python_app", name := "app", folder_path := folderP,
    main_file_path := mainP, html_interface_path := none, port := 5000,
    thumbnail_path := none, file_size := 1, created_at := "t0",
    last_modified := some mt, dependencies := none }

def c2t1 : List Row := insert_item [] (mkItem "a.py" "f" "m1") "s1"

def c2t2 : List Row := insert_item c2t1 (mkItem "b.py" "f" "m1") "s2"

def c2t3 : List Row := remove_item c2t2 2

def c2t4 : List Row := insert_item c2t3 (mkItem "c.py" "f" "m1") "s3"

/-- C2 counterexample. The id p002 is assigned to the entry for b.py, the
row holding it is deleted, and a later allocation of the same kind assigns
p002 again, to the entry for c.py: an id value is reused after deletion. -/
theorem short_id_reuse_cx :
    (c2t2.filter fun r => r.main_file_path = "b.py").map Row.simple_id = ["p002"] ∧
    (c2t3.filter fun r => r.simple_id = "p002") = [] ∧
    (c2t4.filter fun r => r.main_file_path = "c.py").map Row.simple_id = ["p002"] := by
  refine ⟨?_, ?_, ?_⟩ <;> decide

/-- C2 amended. Within a kind, a newly allocated id has a strictly greater
numeric suffix than every id of that kind present in the table at allocation
time, and in particular never equals the id of any present entry of that
kind; reuse is only possible after the entry holding the greatest id of the
kind has been deleted. -/
theorem short_id_fresh_amended (rows : List Row) (t : String) (r : Row)
    (hr : r ∈ rows)
    (hp : (kindMarker t).data.isPrefixOf r.simple_id.data = true) :
    castSuffix r.simple_id < castSuffix (generateSimpleId rows t) ∧
    r.simple_id ≠ generateSimpleId rows t := by
  have hmem : r ∈ rows.filter fun x => (kindMarker t).data.isPrefixOf x.simple_id.data :=
    List.mem_filter.mpr ⟨hr, hp⟩
  have hne : (rows.filter fun x => (kindMarker t).data.isPrefixOf x.simple_id.data) ≠ [] := by
    intro hnil
    rw [hnil] at hmem
    simp at hmem
  have hle : castSuffix r.simple_id ≤
      (((rows.filter fun x => (kindMarker t).data.isPrefixOf x.simple_id.data).map
        fun x => castSuffix x.simple_id).foldr max 0) :=
    le_foldr_max _ _ (List.mem_map_of_mem _ hmem)
  have hgen : generateSimpleId rows t = kindMarker t ++ pad3
      ((((rows.filter fun x => (kindMarker t).data.isPrefixOf x.simple_id.data).map
        fun x => castSuffix x.simple_id).foldr max 0) + 1) :=
    (generate_simple_id_spec rows t).2.1
  have hcast : castSuffix (generateSimpleId rows t) =
      (((rows.filter fun x => (kindMarker t).data.isPrefixOf x.simple_id.data).map
        fun x => castSuffix x.simple_id).foldr max 0) + 1 := by
    rw [hgen]
    exact castSuffix_marker_pad3 _ (kindMarker_length t) _
  constructor
  · omega
  · intro heq
    rw [heq, hcast] at hle
    omega

def c2row : Row :=
  { id := 1, item_type := "python_app", name := "app", folder_path := "f",
    main_file_path := "a.py", html_interface_path := none, port := 5000,
    thumbnail_path := none, file_size := 1, created_at := "s1",
    last_modified := some "m1", dependencies := none, last_scanned := "s1",
    simple_id := "p001" }

theorem short_id_fresh_witness :
    c2row ∈ [c2row] ∧
    (kindMarker "python_app").data.isPrefixOf c2row.simple_id.data = true ∧
    (castSuffix c2row.simple_id < castSuffix (generateSimpleId [c2row] "python_app") ∧
      c2row.simple_id ≠ generateSimpleId [c2row] "python_app") :=
  ⟨by decide, by decide,
    short_id_fresh_amended [c2row] "python_app" c2row (by decide) (by decide)⟩

/-! ## Claims C4 and C10: the upsert on an existing row -/

/-- C4. Re-running the persist upsert on a pair that already has a row, with
an unchanged modification time, produces the same table with only the
last_scanned column of that row replaced: no duplicate row, every other
column untouched, the (main_file_path, folder_path) pairs unchanged, and
their uniqueness preserved. -/
theorem insert_unchanged_mtime_updates_last_scanned (table : List Row)
    (d : ItemData) (now : String) (ex : Row)
    (hex : findExisting table d = some ex)
    (hmt : d.last_modified = ex.last_modified) :
    insert_item table d now =
      table.map (fun r => if r.id = ex.id then { r with last_scanned := now } else r) ∧
    (insert_item table d now).length = table.length ∧
    (insert_item table d now).map (fun r => { r with last_scanned := "" }) =
      table.map (fun r => { r with last_scanned := "" }) ∧
    (insert_item table d now).map (fun r => (r.main_file_path, r.folder_path)) =
      table.map (fun r => (r.main_file_path, r.folder_path)) ∧
    ((table.map fun r => (r.main_file_path, r.folder_path)).Nodup →
      ((insert_item table d now).map fun r => (r.main_file_path, r.folder_path)).Nodup) := by
  have hmc : mtimeChanged d ex.last_modified = false := by
    rw [← hmt]
    unfold mtimeChanged
    rcases d.last_modified with _ | c <;> simp
  have hmain : insert_item table d now =
      table.map (fun r => if r.id = ex.id then { r with last_scanned := now } else r) := by
    unfold insert_item
    rw [hex]
    dsimp only
    rw [hmc]
    simp
  refine ⟨hmain, ?_, ?_, ?_, ?_⟩
  · rw [hmain, List.length_map]
  · rw [hmain, List.map_map]
    refine List.map_congr_left ?_
    intro a _
    by_cases h : a.id = ex.id <;> simp [h]
  · rw [hmain, List.map_map]
    refine List.map_congr_left ?_
    intro a _
    by_cases h : a.id = ex.id <;> simp [h]
  · intro hnd
    rw [hmain, List.map_map]
    have : (table.map fun r =>
        ((fun r => (r.main_file_path, r.folder_path)) ∘
          fun r => if r.id = ex.id then { r with last_scanned := now } else r) r) =
        table.map fun r => (r.main_file_path, r.folder_path) := by
      refine List.map_congr_left ?_
      intro a _
      by_cases h : a.id = ex.id <;> simp [h]
    rw [this]
    exact hnd

def c4item : ItemData := mkItem "a.py" "f" "m1"

theorem insert_unchanged_mtime_witness :
    findExisting [c2row] c4item = some c2row ∧
    c4item.last_modified = c2row.last_modified ∧
    insert_item [c2row] c4item "s9" =
      [c2row].map (fun r => if r.id = c2row.id then { r with last_scanned := "s9" } else r) :=
  ⟨by decide, by decide,
    (insert_unchanged_mtime_updates_last_scanned [c2row] c4item "s9" c2row
      (by decide) (by decide)).1⟩

/-- C10. Whenever the upsert finds an existing row for the incoming pair,
with a changed or an unchanged modification time, the id and simple_id of
every row are untouched: a short id is generated only on the insert path of
a new row. -/
theorem upsert_preserves_simple_id (table : List Row) (d : ItemData)
    (now : String) (ex : Row) (hex : findExisting table d = some ex) :
    (insert_item table d now).map (fun r => (r.id, r.simple_id)) =
      table.map (fun r => (r.id, r.simple_id)) := by
  unfold insert_item
  rw [hex]
  dsimp only
  by_cases hmc : mtimeChanged d ex.last_modified = true
  · rw [if_pos hmc, List.map_map]
    refine List.map_congr_left ?_
    intro a _
    by_cases h : a.id = ex.id <;> simp [h, applyItemData]
  · rw [if_neg hmc, List.map_map]
    refine List.map_congr_left ?_
    intro a _
    by_cases h : a.id = ex.id <;> simp [h]

def c10item : ItemData := mkItem "a.py" "f" "m2"

theorem upsert_preserves_simple_id_witness :
    findExisting [c2row] c4item = some c2row ∧
    findExisting [c2row] c10item = some c2row ∧
    mtimeChanged c10item c2row.last_modified = true ∧
    (insert_item [c2row] c4item "s9").map (fun r => (r.id, r.simple_id)) =
      [c2row].map (fun r => (r.id, r.simple_id)) ∧
    (insert_item [c2row] c10item "s9").map (fun r => (r.id, r.simple_id)) =
      [c2row].map (fun r => (r.id, r.simple_id)) :=
  ⟨by decide, by decide, by decide,
    upsert_preserves_simple_id [c2row] c4item "s9" c2row (by decide),
    upsert_preserves_simple_id [c2row] c10item "s9" c2row (by decide)⟩

/-! ## Claims C1 and C8: the foreground supervisor -/

def c1state : SupState := ⟨some ⟨1, "a.py", "http://localhost:5000"⟩, [1], 2⟩

/-- C1 counterexample. A serve request for a different script while a.py is
running tears the old process down with terminate followed by an unbounded
wait: the trace holds no bounded wait and no forced kill, refuting the
stated terminate, bounded wait, force-kill teardown for this launch path. -/
theorem supervisor_unbounded_wait_cx :
    (serve_python_app c1state "b.py" 5000 true).2.2 =
      [.terminate 1, .waitUnbounded 1, .spawn 2] ∧
    ProcAction.waitUnbounded 1 ∈ (serve_python_app c1state "b.py" 5000 true).2.2 ∧
    ProcAction.kill 1 ∉ (serve_python_app c1state "b.py" 5000 true).2.2 ∧
    ProcAction.waitBounded 1 5 ∉ (serve_python_app c1state "b.py" 5000 true).2.2 := by
  refine ⟨?_, ?_, ?_, ?_⟩ <;> decide

/-- C1 amended. At most one foreground process exists at any observed
instant (the single-slot invariant is preserved by both launch paths), a
status query after a launch reports exactly the most recently launched
process, and any existing process is fully torn down before the new one is
recorded — by terminate, bounded five-second wait and forced kill in
launch_app, but by terminate and unbounded wait in serve_by_simple_id,
which skips the teardown and reuses the process when the requested script
is already the running one. -/
theorem supervisor_single_slot_amended (s : SupState) (path : String)
    (port : Nat) (fe so oe : Bool) (hInv : supInv s = true) :
    supInv (launch_app s path fe so oe).1 = true ∧
    supInv (serve_python_app s path port so).1 = true ∧
    (fe = true → so = true →
      get_status (launch_app s path fe so oe).1 = some (path, "http://localhost:5000")) ∧
    (fe = true → ∀ rp, s.current = some rp →
      (launch_app s path fe so oe).2.2 =
        (if oe = true then [.terminate rp.pid, .waitBounded rp.pid 5]
         else [.terminate rp.pid, .waitBounded rp.pid 5, .kill rp.pid]) ++
        (if so = true then [.spawn s.nextPid] else [])) ∧
    (so = true → ∀ rp, s.current = some rp → rp.path ≠ path →
      serve_python_app s path port so =
        (⟨some ⟨s.nextPid, path, "http://localhost:" ++ natRepr port⟩,
          [s.nextPid], s.nextPid + 1⟩,
         .redirect ("http://localhost:" ++ natRepr port),
         [.terminate rp.pid, .waitUnbounded rp.pid, .spawn s.nextPid])) ∧
    (∀ rp, s.current = some rp → rp.path = path →
      serve_python_app s path port so = (s, .redirect rp.url, [])) := by
  rcases hs : s.current with _ | rp
  · have halive : s.alivePids = [] := by
      unfold supInv at hInv
      rw [hs] at hInv
      simpa using hInv
    refine ⟨?_, ?_, ?_, ?_, ?_, ?_⟩
    · cases fe <;> cases so <;>
        simp [launch_app, teardownBounded, supInv, hs, halive]
    · cases so <;> simp [serve_python_app, teardownUnbounded, supInv, hs, halive]
    · intro hfe hso
      subst hfe; subst hso
      simp [launch_app, teardownBounded, get_status, hs]
    · intro _ rp hrp
      exact absurd hrp (by simp)
    · intro _ rp hrp
      exact absurd hrp (by simp)
    · intro rp hrp
      exact absurd hrp (by simp)
  · have halive : s.alivePids = [rp.pid] := by
      unfold supInv at hInv
      rw [hs] at hInv
      simpa using hInv
    refine ⟨?_, ?_, ?_, ?_, ?_, ?_⟩
    · cases fe <;> cases so <;>
        simp [launch_app, teardownBounded, supInv, hs, halive, hInv]
    · rcases hpq : rp.path == path with _ | _
      · cases so <;>
          simp [serve_python_app, teardownUnbounded, supInv, hs, halive, hpq, bne]
      · cases so <;>
          simp [serve_python_app, teardownUnbounded, supInv, hs, halive, hpq, bne, hInv]
    · intro hfe hso
      subst hfe; subst hso
      simp [launch_app, teardownBounded, get_status, hs]
    · intro hfe rp' hrp'
      injection hrp' with h
      subst h
      subst hfe
      cases so <;> cases oe <;> simp [launch_app, teardownBounded, hs]
    · intro hso rp' hrp' hne
      injection hrp' with h
      subst h
      subst hso
      have hb : (rp.path != path) = true := bne_iff_ne.mpr hne
      simp [serve_python_app, teardownUnbounded, hs, hb, halive]
    · intro rp' hrp' heq
      injection hrp' with h
      subst h
      have hb : (rp.path != path) = false := by
        simp [bne, heq]
      simp [serve_python_app, hs, hb]

theorem supervisor_single_slot_witness :
    supInv c1state = true ∧
    supInv (launch_app c1state "b.py" true true true).1 = true ∧
    get_status (launch_app c1state "b.py" true true true).1 =
      some ("b.py", "http://localhost:5000") :=
  ⟨by decide,
    (supervisor_single_slot_amended c1state "b.py" 5000 true true true (by decide)).1,
    (supervisor_single_slot_amended c1state "b.py" 5000 true true true
      (by decide)).2.2.1 rfl rfl⟩

/-- C8 counterexample. A launch request for a missing file while a.py is
running surfaces a 404 but returns before the teardown: the supervisor
still records the old running process, so it is not left idle. -/
theorem launch_missing_file_not_idle_cx :
    (launch_app c1state "missing.py" false true true).2.1 = LaunchResult.notFound ∧
    (launch_app c1state "missing.py" false true true).1.current =
      some ⟨1, "a.py", "http://localhost:5000"⟩ := by
  refine ⟨?_, ?_⟩ <;> decide

/-- C8 amended. Every failed launch surfaces its error to the caller and
records no new process; a spawn failure leaves the supervisor idle (the
prior process was already torn down), while a missing-file failure returns
before the teardown and leaves the supervisor in its prior state, with the
prior running process, if any, still recorded. -/
theorem launch_failure_amended (s : SupState) (path : String) (so oe : Bool) :
    launch_app s path false so oe = (s, .notFound, []) ∧
    (launch_app s path true false oe).2.1 = .failed "spawn failure" ∧
    (launch_app s path true false oe).1.current = none := by
  refine ⟨by simp [launch_app], ?_, ?_⟩
  · rcases hs : s.current with _ | rp <;>
      simp [launch_app, teardownBounded, hs]
  · rcases hs : s.current with _ | rp <;>
      cases oe <;> simp [launch_app, teardownBounded, hs]

/-! ## Claim C3: discovery batch progress -/

/-- C3 counterexample. A scan that finds no items at all: the route resets
the total to the placeholder 1, and the single recomputation at the end of
the second stage then moves the total backwards from 1 to 0, so the total
is published twice and does not only move forward. -/
theorem scan_total_decreases_cx :
    (scanTrace 0 0).map ScanView.total = [1, 1, 1, 0, 0] ∧
    ¬ List.Chain' (fun a b => a ≤ b) ((scanTrace 0 0).map ScanView.total) := by
  have h : (scanTrace 0 0).map ScanView.total = [1, 1, 1, 0, 0] := by decide
  refine ⟨h, ?_⟩
  rw [h]
  norm_num [List.chain'_cons]

/-- C3 amended. At every polled instant of a scan batch completed never
exceeds total and completed only moves forward; the total however is
assigned twice: the batch start resets it to the placeholder 1, and the end
of the second scan stage recomputes it exactly once as the count of found
executables plus found static pages — never recomputed afterwards — which
moves the total backwards when the scan finds nothing. -/
theorem scan_progress_amended (nPy nHtml : Nat) :
    (∀ v ∈ scanTrace nPy nHtml, v.completed ≤ v.total) ∧
    List.Chain' (fun a b => a.completed ≤ b.completed) (scanTrace nPy nHtml) ∧
    (∀ v ∈ (scanTrace nPy nHtml).take 3, v.total = 1) ∧
    (∀ v ∈ (scanTrace nPy nHtml).drop 3, v.total = nPy + nHtml) := by
  refine ⟨?_, ?_, ?_, ?_⟩
  · intro v hv
    simp only [scanTrace, persistStates, List.mem_append, List.mem_cons,
      List.mem_map, List.mem_range, List.not_mem_nil, or_false] at hv
    rcases hv with (h | h | h | h) | ⟨i, hi, rfl⟩
    · subst h; decide
    · subst h; decide
    · subst h; decide
    · subst h; simp
    · simpa using Nat.lt_succ_iff.mp hi
  · rw [scanTrace, List.chain'_append]
    refine ⟨?_, ?_, ?_⟩
    · simp
    · rw [persistStates, List.chain'_map]
      exact (List.chain'_range_succ _ _).mpr fun m _ => by simp
    · intro x hx y hy
      simp only [List.getLast?] at hx
      simp only [persistStates, List.range_succ_eq_map, List.map_cons,
        List.head?_cons, Option.mem_def, Option.some.injEq] at hy
      subst hy
      simp at hx
      subst hx
      simp
  · intro v hv
    simp only [scanTrace, List.take] at hv
    rcases List.mem_cons.mp hv with h | hv
    · subst h; rfl
    rcases List.mem_cons.mp hv with h | hv
    · subst h; rfl
    rcases List.mem_cons.mp hv with h | hv
    · subst h; rfl
    · simp at hv
  · intro v hv
    simp only [scanTrace, List.drop, persistStates] at hv
    rcases List.mem_cons.mp hv with h | hv
    · subst h; rfl
    · rcases List.mem_map.mp hv with ⟨i, _, rfl⟩
      rfl

theorem scan_progress_witness :
    (⟨0, 1, "initializing"⟩ : ScanView) ∈ scanTrace 1 1 ∧
    (⟨0, 1, "initializing"⟩ : ScanView).completed ≤
      (⟨0, 1, "initializing"⟩ : ScanView).total :=
  ⟨by decide, (scan_progress_amended 1 1).1 _ (by decide)⟩

/-! ## Claim C7: the static server registry -/

/-- C7 counterexample. A first request whose serving thread fails to bind:
the route still returns the allocated port after the fixed delay although no
handle was registered and nothing is listening for the target, refuting that
the port is only given back once the task is confirmed listening. -/
theorem html_server_unconfirmed_port_cx :
    get_or_start_html_server ⟨[]⟩ "a.html" 8001 false =
      ⟨⟨[]⟩, 8001, true⟩ ∧
    registryLookup (get_or_start_html_server ⟨[]⟩ "a.html" 8001 false).reg
      "a.html" = none := by
  refine ⟨by decide, by decide⟩

/-- C7 amended. If the registry holds a handle for the target, its port is
returned with no new server started; otherwise a serving task is started
and the allocated port is returned after a fixed one-second delay without
any listening confirmation; consequently two calls for the same target
yield the same port with exactly one server started provided the first
call's serving task bound its socket successfully. -/
theorem html_server_reuse_amended (reg : Registry) (p : String)
    (fp1 fp2 : Nat) (b1 b2 : Bool) :
    (∀ port0, registryLookup reg p = some port0 →
      get_or_start_html_server reg p fp1 b1 = ⟨reg, port0, false⟩) ∧
    (registryLookup reg p = none →
      (get_or_start_html_server reg p fp1 true).port = fp1 ∧
      (get_or_start_html_server reg p fp1 true).startedServer = true ∧
      registryLookup (get_or_start_html_server reg p fp1 true).reg p = some fp1 ∧
      get_or_start_html_server (get_or_start_html_server reg p fp1 true).reg p fp2 b2 =
        ⟨(get_or_start_html_server reg p fp1 true).reg, fp1, false⟩) ∧
    (registryLookup reg p = none →
      (get_or_start_html_server reg p fp1 false).port = fp1 ∧
      registryLookup (get_or_start_html_server reg p fp1 false).reg p = none) := by
  refine ⟨?_, ?_, ?_⟩
  · intro port0 hl
    rcases hf : reg.servers.find? fun e => e.1 = p with _ | e
    · rw [registryLookup, hf] at hl
      simp at hl
    · rw [registryLookup, hf] at hl
      simp at hl
      subst hl
      simp [get_or_start_html_server, hf]
  · intro hl
    have hf : (reg.servers.find? fun e => e.1 = p) = none := by
      rw [registryLookup] at hl
      exact Option.map_eq_none.mp hl
    have hstep : get_or_start_html_server reg p fp1 true =
        ⟨⟨reg.servers ++ [(p, fp1)]⟩, fp1, true⟩ := by
      simp [get_or_start_html_server, hf]
    have hfind2 : ((reg.servers ++ [(p, fp1)]).find? fun e => e.1 = p) =
        some (p, fp1) := by
      rw [List.find?_append, hf]
      simp
    refine ⟨by rw [hstep], by rw [hstep], ?_, ?_⟩
    · rw [hstep, registryLookup]
      simp [hfind2]
    · rw [hstep]
      simp [get_or_start_html_server, hfind2]
  · intro hl
    have hf : (reg.servers.find? fun e => e.1 = p) = none := by
      rw [registryLookup] at hl
      exact Option.map_eq_none.mp hl
    have hstep : get_or_start_html_server reg p fp1 false = ⟨reg, fp1, true⟩ := by
      simp [get_or_start_html_server, hf]
    exact ⟨by rw [hstep], by rw [hstep]; exact hl⟩

theorem html_server_reuse_witness :
    registryLookup ⟨[]⟩ "a.html" = none ∧
    registryLookup (get_or_start_html_server ⟨[]⟩ "a.html" 8001 true).reg
      "a.html" = some 8001 ∧
    get_or_start_html_server (get_or_start_html_server ⟨[]⟩ "a.html" 8001 true).reg
      "a.html" 8002 true =
      ⟨(get_or_start_html_server ⟨[]⟩ "a.html" 8001 true).reg, 8001, false⟩ :=
  ⟨by decide,
    ((html_server_reuse_amended ⟨[]⟩ "a.html" 8001 8002 true true).2.1
      (by decide)).2.2.1,
    ((html_server_reuse_amended ⟨[]⟩ "a.html" 8001 8002 true true).2.1
      (by decide)).2.2.2⟩

/-! ## Claim C5: preview capture failure isolation -/

/-- C5. Every queued capture item receives exactly one recorded terminal
outcome and the batch is never aborted (the worker output covers all items
in order and the completed counter reaches the batch size); a capture
exception is recorded as a failed result carrying the exception text; an
executable item whose process exits within the settle delay fails with a
diagnostic containing the captured stdout and stderr; and the teardown in
the finally block leaves no spawned process alive after the item. -/
theorem capture_failure_isolated (items : List QItem) (nm : String)
    (env : ExecEnv) :
    (smart_screenshot_worker items).1 =
      items.map (fun it => (it, (processItem it).1)) ∧
    (smart_screenshot_worker items).2 = items.length ∧
    (env.hasInterface = true → env.scriptExists = true →
      env.exitsDuringSettle = true →
      processItem (.exec nm env) = (⟨false, some (earlyExitMsg env)⟩, false) ∧
      ∃ pre mid, earlyExitMsg env =
        pre ++ env.stdoutTxt ++ (mid ++ env.stderrTxt)) ∧
    (processItem (.exec nm env)).2 = false := by
  refine ⟨?_, ?_, ?_, ?_⟩
  · induction items with
    | nil => rfl
    | cons it rest ih => simp [smart_screenshot_worker, ih]
  · induction items with
    | nil => rfl
    | cons it rest ih => simp [smart_screenshot_worker, ih]
  · intro h1 h2 h3
    constructor
    · simp [processItem, screenshot_python_app, h1, h2, h3]
    · refine ⟨"Python app failed to start. Exit code: " ++ natRepr env.exitCode ++
        "\nSTDOUT: ", "\nSTDERR: ", ?_⟩
      simp [earlyExitMsg, String.append_assoc]
  · show (screenshot_python_app env).procAliveAfter = false
    unfold screenshot_python_app
    repeat' split
    all_goals rfl

def c5env : ExecEnv :=
  { hasInterface := true, scriptExists := true, exitsDuringSettle := true,
    exitCode := 1, stdoutTxt := "out", stderrTxt := "err",
    navigateOk := true, screenshotCreated := true }

theorem capture_failure_witness :
    c5env.hasInterface = true ∧ c5env.scriptExists = true ∧
    c5env.exitsDuringSettle = true ∧
    processItem (.exec "a" c5env) = (⟨false, some (earlyExitMsg c5env)⟩, false) :=
  ⟨rfl, rfl, rfl,
    ((capture_failure_isolated [] "a" c5env).2.2.1 rfl rfl rfl).1⟩

/-! ## Claim C6: web application detection -/

/-- C6. A file is accepted as a launchable web app only when it contains an
app.run call; a file defining main without the main guard is rejected; the
declared port is used and otherwise both fallback branches yield the
default 5000; and every app kept by find_python_apps has a companion page,
an app without one being dropped with a logged warning. -/
theorem web_app_detection_correct (path nm : String) (c : PyContent)
    (files : List PyFile) :
    (∀ info, is_valid_web_app path nm c = some info → c.hasAppRun = true) ∧
    (c.hasMainDef = true → c.hasMainGuard = false →
      is_valid_web_app path nm c = none) ∧
    (∀ info, is_valid_web_app path nm c = some info →
      info.port = c.portDecl.getD 5000) ∧
    (∀ app ∈ (find_python_apps files).1, ∃ f ∈ files,
      excludedPath f.path = false ∧
      is_valid_web_app f.path f.dispName f.content = some app.info ∧
      f.companion = some app.html_interface) ∧
    (∀ f ∈ files, excludedPath f.path = false →
      ∀ info, is_valid_web_app f.path f.dispName f.content = some info →
      f.companion = none →
      ("No HTML interface found for Python app: " ++ f.path) ∈
        (find_python_apps files).2) := by
  refine ⟨?_, ?_, ?_, ?_, ?_⟩
  · intro info h
    cases ha : c.hasAppRun
    · simp [is_valid_web_app, ha] at h
    · rfl
  · intro h1 h2
    simp [is_valid_web_app, h1, h2]
  · intro info h
    cases ha : c.hasAppRun
    · simp [is_valid_web_app, ha] at h
    · rcases hm : c.hasMainDef && !c.hasMainGuard
      · rcases hp : c.portDecl with _ | n <;>
          · simp [is_valid_web_app, ha, hm, hp] at h
            rw [← h]
            simp [hp]
      · simp [is_valid_web_app, ha, hm] at h
  · induction files with
    | nil => intro app happ; simp [find_python_apps] at happ
    | cons f fs ih =>
      intro app happ
      rw [find_python_apps] at happ
      by_cases hex : excludedPath f.path
      · rw [if_pos hex] at happ
        rcases ih app happ with ⟨g, hg, h⟩
        exact ⟨g, List.mem_cons_of_mem _ hg, h⟩
      · rw [if_neg hex] at happ
        rcases hv : is_valid_web_app f.path f.dispName f.content with _ | info
        · rw [hv] at happ
          rcases ih app happ with ⟨g, hg, h⟩
          exact ⟨g, List.mem_cons_of_mem _ hg, h⟩
        · rw [hv] at happ
          rcases hc : f.companion with _ | page
          · rw [hc] at happ
            rcases ih app happ with ⟨g, hg, h⟩
            exact ⟨g, List.mem_cons_of_mem _ hg, h⟩
          · rw [hc] at happ
            rcases List.mem_cons.mp happ with h | h
            · subst h
              exact ⟨f, List.mem_cons_self _ _,
                Bool.not_eq_true _ ▸ eq_false_of_ne_true hex, hv, hc⟩
            · rcases ih app h with ⟨g, hg, hrest⟩
              exact ⟨g, List.mem_cons_of_mem _ hg, hrest⟩
  · induction files with
    | nil => intro f hf; simp at hf
    | cons g gs ih =>
      intro f hf hex info hv hc
      rw [find_python_apps]
      rcases List.mem_cons.mp hf with h | h
      · subst h
        rw [if_neg (by simp [hex]), hv, hc]
        exact List.mem_cons_self _ _
      · have htail := ih f h hex info hv hc
        by_cases hgex : excludedPath g.path
        · rw [if_pos hgex]; exact htail
        · rw [if_neg hgex]
          rcases hgv : is_valid_web_app g.path g.dispName g.content with _ | ginfo
          · exact htail
          · rcases hgc : g.companion with _ | page
            · exact List.mem_cons_of_mem _ htail
            · exact htail

def c6content : PyContent :=
  { hasAppRun := true, hasMainDef := false, hasMainGuard := false,
    portDecl := some 8080, mentionsPort := false, importsFlask := true,
    importsDjango := false }

def c6file : PyFile :=
  { path := "x/app.py", dispName := "App", content := c6content,
    companion := none }

theorem web_app_detection_witness :
    is_valid_web_app "x/app.py" "App" c6content =
      some ⟨"x/app.py", 8080, "flask", "App"⟩ ∧
    excludedPath c6file.path = false ∧
    (find_python_apps [c6file]).1 = [] ∧
    ("No HTML interface found for Python app: x/app.py") ∈
      (find_python_apps [c6file]).2 :=
  ⟨by decide, by decide, by decide,
    (web_app_detection_correct "x/app.py" "App" c6content [c6file]).2.2.2.2
      c6file (by decide) (by decide) ⟨"x/app.py", 8080, "flask", "App"⟩
      (by decide) (by decide)⟩
